import Mathlib

/-!
Verification development for the shrmpl key-value server
(`src/shrmpl_kv_srv.rs`).  The Rust source is shallowly embedded:

* `SystemTime` is modelled as a `Nat` (seconds); each command invocation
  receives the current time `now` as an explicit parameter.
* The `HashMap<String, StoredValue>` is modelled as an association list
  `List (String × StoredValue)`; `HashMap` keys are unique, which is taken
  as a hypothesis (`Nodup` on the key list) where a theorem needs it.
* Rust's 64-bit machine integers are modelled as `Int`/`Nat` with explicit
  reduction modulo `2 ^ 64` where the source arithmetic can overflow
  (`i + 1` in INCR, `secs * 60` / `hours * 3600` in `parse_expiration`);
  release builds of Rust wrap on overflow.
* Byte lengths (`str::len`) are modelled by `String.utf8ByteSize`.
-/

namespace Shrmpl

/-- The tagged value union of the store (`enum Value  Int(i64) | Str(String)`). -/
inductive Value where
  | Int (i : Int)
  | Str (s : String)
deriving DecidableEq

/-- An entry of the store (`struct StoredValue  value, expires_at`). -/
structure StoredValue where
  value : Value
  expires_at : Option Nat
deriving DecidableEq

/-- The shared map, modelled as an association list with unique keys. -/
def Store := List (String × StoredValue)
deriving DecidableEq

/-- Lookup of a key, first match (`HashMap::get`). -/
def lookupKV : Store → String → Option StoredValue
  | [], _ => none
  | p :: t, k => if p.1 = k then some p.2 else lookupKV t k

/-- Removal of a key (`HashMap::remove`; keys are unique, so removing
every binding of the key coincides with removing the one binding). -/
def removeKV : Store → String → Store
  | [], _ => []
  | p :: t, k => if p.1 = k then removeKV t k else p :: removeKV t k

/-- Insertion, replacing any previous binding of the key (`HashMap::insert`). -/
def insertKV (s : Store) (k : String) (v : StoredValue) : Store :=
  (k, v) :: removeKV s k

/-- Wrapping 64-bit signed arithmetic: reduce an integer into
`[-2 ^ 63, 2 ^ 63)` the way Rust release builds wrap `i64` overflow. -/
def wrap64 (z : Int) : Int :=
  (z + 2 ^ 63) % 2 ^ 64 - 2 ^ 63

/-- Value of a string of ASCII digits, `none` if empty or not all digits
(the digit-accumulation loop of Rust's integer `from_str`). -/
def digitsToNat : List Char → Nat → Option Nat
  | [], acc => some acc
  | c :: cs, acc =>
      if c.isDigit then digitsToNat cs (acc * 10 + (c.toNat - 48)) else none

/-- Digit-sequence parse, rejecting the empty sequence. -/
def parseNatDigits (cs : List Char) : Option Nat :=
  match cs with
  | [] => none
  | _ => digitsToNat cs 0

/-- Rust `u64::from_str`: optional `+` sign, one or more ASCII digits,
value below `2 ^ 64`. -/
def parseU64 (s : String) : Option Nat :=
  let cs := match s.data with
    | '+' :: rest => rest
    | cs => cs
  match parseNatDigits cs with
  | some n => if n < 2 ^ 64 then some n else none
  | none => none

/-- Rust `i64::from_str`: optional sign, one or more ASCII digits,
value within `[-2 ^ 63, 2 ^ 63)`. -/
def parseI64 (s : String) : Option Int :=
  match s.data with
  | '+' :: rest =>
      (parseNatDigits rest).bind fun n =>
        if n ≤ 2 ^ 63 - 1 then some (n : Int) else none
  | '-' :: rest =>
      (parseNatDigits rest).bind fun n =>
        if n ≤ 2 ^ 63 then some (-(n : Int)) else none
  | cs =>
      (parseNatDigits cs).bind fun n =>
        if n ≤ 2 ^ 63 - 1 then some (n : Int) else none

/-- Splitting of a character list at every character satisfying `p`,
keeping empty pieces (the common core of Rust `split(';')` and
`split_whitespace`). -/
def splitByPred (p : Char → Bool) : List Char → List (List Char)
  | [] => [[]]
  | c :: cs =>
    if p c then [] :: splitByPred p cs
    else
      match splitByPred p cs with
      | t :: ts => (c :: t) :: ts
      | [] => [[c]]

/-- Rust `str::split(';')`: split on each semicolon, keeping empty
pieces. -/
def splitOnSemi (s : String) : List String :=
  (splitByPred (fun c => c == ';') s.data).map (fun cs => ⟨cs⟩)

/-- Rust `str::ends_with` for string patterns (byte suffix, equivalently
character suffix). -/
def endsWithStr (s p : String) : Bool :=
  p.data.isSuffixOf s.data

/-- Rust `str::trim`: strip whitespace from both ends. -/
def rustTrim (s : String) : String :=
  ⟨((s.data.dropWhile Char.isWhitespace).reverse.dropWhile
      Char.isWhitespace).reverse⟩

/-- Rust `str::trim_end`: strip trailing whitespace. -/
def rustTrimEnd (s : String) : String :=
  ⟨(s.data.reverse.dropWhile Char.isWhitespace).reverse⟩

/-- Rust `Vec::join(";")`. -/
def joinSemi : List String → String
  | [] => ""
  | [x] => x
  | x :: xs => x ++ ";" ++ joinSemi xs

/-- Rust `str::trim_end_matches(c)`: remove every trailing occurrence of
the character `c`. -/
def trimTrailingChar (s : String) (c : Char) : String :=
  ⟨(s.data.reverse.dropWhile (fun x => x == c)).reverse⟩

/-- Helper for `trim_end_matches("min")` on the reversed character list:
strip leading repetitions of `n`, `i`, `m`. -/
def stripMinRev : List Char → List Char
  | 'n' :: 'i' :: 'm' :: rest => stripMinRev rest
  | cs => cs

/-- Rust `str::trim_end_matches("min")`: remove every trailing repetition
of the string `min`. -/
def trimTrailingMin (s : String) : String :=
  ⟨(stripMinRev s.data.reverse).reverse⟩

/-- Translation of `parse_expiration`: a suffix `s`, `min` or `h` selects
the unit; all trailing repetitions of that suffix are stripped and the
remainder must parse as a `u64`.  The result is in seconds; the `u64`
multiplications wrap modulo `2 ^ 64`. -/
def parse_expiration (exp : String) : Option Nat :=
  if endsWithStr exp "s" then
    parseU64 (trimTrailingChar exp 's')
  else if endsWithStr exp "min" then
    (parseU64 (trimTrailingMin exp)).map (fun n => n * 60 % 2 ^ 64)
  else if endsWithStr exp "h" then
    (parseU64 (trimTrailingChar exp 'h')).map (fun n => n * 3600 % 2 ^ 64)
  else
    none

/-- Rust `str::split_whitespace`: split on whitespace, dropping empty
tokens. -/
def splitWhitespace (s : String) : List String :=
  ((splitByPred Char.isWhitespace s.data).map (fun cs => (⟨cs⟩ : String))).filter
    (fun t => t ≠ "")

/-- Rendering of a stored value for replies (`format!` on either arm). -/
def valueToString : Value → String
  | .Int i => toString i
  | .Str s => s

/-- Numeric coercion of a SET value: `Int` when the token parses as `i64`,
`Str` otherwise. -/
def coerceValue (v : String) : Value :=
  match parseI64 v with
  | some i => Value.Int i
  | none => Value.Str v

/-- One line of LIST output: `key=value,expiry`. -/
def listLine (p : String × StoredValue) : String :=
  p.1 ++ "=" ++ valueToString p.2.value ++ "," ++
    (match p.2.expires_at with
     | some e => toString e
     | none => "no-expiration") ++ "\n"

/-- Translation of `process_single_command`: dispatch on the first
whitespace token, returning the reply line and the updated store. -/
def processSingleCommand (parts : List String) (now : Nat) (store : Store) :
    String × Store :=
  match parts with
  | [] => ("ERROR unknown command\n", store)
  | cmd :: args =>
    if cmd = "PING" then
      ("PONG\n", store)
    else if cmd = "GET" then
      match args with
      | [key] =>
        if key.utf8ByteSize > 100 then ("ERROR invalid length\n", store)
        else
          match lookupKV store key with
          | some stored =>
            match stored.expires_at with
            | some exp =>
              if exp ≤ now then ("ERROR key not found\n", removeKV store key)
              else (valueToString stored.value ++ "\n", store)
            | none => (valueToString stored.value ++ "\n", store)
          | none => ("*KEY NOT FOUND*\n", store)
      | _ => ("ERROR invalid arguments\n", store)
    else if cmd = "SET" then
      match args with
      | key :: valueStr :: rest =>
        if rest.length > 1 then ("ERROR invalid arguments\n", store)
        else if key.utf8ByteSize > 100 ∨ valueStr.utf8ByteSize > 100 then
          ("ERROR invalid length\n", store)
        else
          match rest with
          | [expStr] =>
            match parse_expiration expStr with
            | some d =>
              ("OK\n", insertKV store key ⟨coerceValue valueStr, some (now + d)⟩)
            | none => ("ERROR invalid expiration\n", store)
          | _ => ("OK\n", insertKV store key ⟨coerceValue valueStr, none⟩)
      | _ => ("ERROR invalid arguments\n", store)
    else if cmd = "INCR" then
      match args with
      | key :: rest =>
        if rest.length > 1 then ("ERROR invalid arguments\n", store)
        else if key.utf8ByteSize > 100 then ("ERROR invalid length\n", store)
        else
          let current := lookupKV store key
          let newVal : Int :=
            match current with
            | some stored =>
              match stored.expires_at with
              | some exp =>
                if exp ≤ now then 1
                else
                  match stored.value with
                  | .Int i => wrap64 (i + 1)
                  | .Str _ => 1
              | none =>
                match stored.value with
                | .Int i => wrap64 (i + 1)
                | .Str _ => 1
            | none => 1
          match rest, current with
          | [expStr], none =>
            match parse_expiration expStr with
            | some d =>
              (toString newVal ++ "\n",
                insertKV store key ⟨Value.Int newVal, some (now + d)⟩)
            | none => ("ERROR invalid expiration\n", store)
          | _, _ =>
            (toString newVal ++ "\n",
              insertKV store key ⟨Value.Int newVal, current.bind (·.expires_at)⟩)
      | [] => ("ERROR invalid arguments\n", store)
    else if cmd = "DEL" then
      match args with
      | [key] =>
        if key.utf8ByteSize > 100 then ("ERROR invalid length\n", store)
        else
          match lookupKV store key with
          | some stored =>
            match stored.expires_at with
            | some exp =>
              if exp ≤ now then ("ERROR key not found\n", removeKV store key)
              else ("OK\n", removeKV store key)
            | none => ("OK\n", removeKV store key)
          | none => ("*KEY NOT FOUND*\n", store)
      | _ => ("ERROR invalid arguments\n", store)
    else if cmd = "LIST" then
      match args with
      | [] =>
        let body := store.foldl (fun acc p => acc ++ listLine p) ""
        (if body = "" then "\n" else body, store)
      | _ => ("ERROR invalid arguments\n", store)
    else
      ("ERROR unknown command\n", store)

/-- Sequential execution of the sub-commands of a BATCH line: empty
(after trimming) segments are skipped, every other segment is dispatched
on the store produced by its predecessors and its reply is collected with
the trailing newline trimmed. -/
def runBatch : List String → Nat → Store → List String × Store
  | [], _, store => ([], store)
  | c :: cs, now, store =>
    if rustTrim c = "" then runBatch cs now store
    else
      (rustTrimEnd
          (processSingleCommand (splitWhitespace (rustTrim c)) now store).1 ::
        (runBatch cs now
          (processSingleCommand (splitWhitespace (rustTrim c)) now store).2).1,
       (runBatch cs now
          (processSingleCommand (splitWhitespace (rustTrim c)) now store).2).2)

/-- Translation of `process_command`: a line starting with `BATCH ` is
split on `;` into sub-commands (more than 3 is an error executed not at
all); any other line is dispatched as a single command. -/
def processCommand (line : String) (now : Nat) (store : Store) :
    String × Store :=
  if "BATCH ".data.isPrefixOf line.data then
    if (splitOnSemi ⟨line.data.drop 6⟩).length > 3 then
      ("ERROR too many commands\n", store)
    else
      (joinSemi (runBatch (splitOnSemi ⟨line.data.drop 6⟩) now store).1 ++ "\n",
       (runBatch (splitOnSemi ⟨line.data.drop 6⟩) now store).2)
  else
    processSingleCommand (splitWhitespace line) now store

/-- Translation of the cleanup task body: retain exactly the entries that
have no expiration or whose expiration is strictly in the future. -/
def sweep (now : Nat) (store : Store) : Store :=
  store.filter (fun p =>
    match p.2.expires_at with
    | some exp => decide (now < exp)
    | none => true)

/-- The TTL grammar exactly as the specification states it:
`\d+s`, `\d+min` or `\d+h` (one or more ASCII digits followed by exactly
one copy of the unit suffix).  Stated from the spec for comparison with
`parse_expiration`, which is translated from the source. -/
def specTtlGrammar (t : String) : Bool :=
  matchNumSuffix t.data ['s'] || matchNumSuffix t.data ['m', 'i', 'n'] ||
    matchNumSuffix t.data ['h']
where
  matchNumSuffix (cs suffix : List Char) : Bool :=
    decide (suffix.length < cs.length) &&
    cs.drop (cs.length - suffix.length) == suffix &&
    (cs.take (cs.length - suffix.length)).all Char.isDigit

example : parse_expiration "5s" = some 5 := by decide
example : parse_expiration "2min" = some 120 := by decide
example : parse_expiration "3h" = some 10800 := by decide
example : parse_expiration "5ss" = some 5 := by decide
example : parse_expiration "+5s" = some 5 := by decide
example : parse_expiration "xyz" = none := by decide
example : parse_expiration "5minmin" = some 300 := by decide
example : specTtlGrammar "5s" = true := by decide
example : specTtlGrammar "5ss" = false := by decide
example : specTtlGrammar "+5s" = false := by decide
example : parseI64 "-12" = some (-12) := by decide
example : parseI64 "12a" = none := by decide
example : parseI64 "9223372036854775807" = some (2 ^ 63 - 1) := by decide
example : parseI64 "9223372036854775808" = none := by decide
example : splitWhitespace "GET  a" = ["GET", "a"] := by decide
example :
    processSingleCommand ["GET", "a"] 0 [] = ("*KEY NOT FOUND*\n", []) := by
  decide
example :
    processSingleCommand ["SET", "a", "7"] 5 [] =
      ("OK\n", [("a", ⟨Value.Int 7, none⟩)]) := by
  decide
example :
    processCommand "BATCH PING;PING" 0 [] = ("PONG;PONG\n", []) := by
  decide

theorem lookupKV_remove_ne (s : Store) (k k' : String) (h : k' ≠ k) :
    lookupKV (removeKV s k) k' = lookupKV s k' := by
  induction s with
  | nil => rfl
  | cons p t ih =>
    simp only [removeKV]
    by_cases hpk : p.1 = k
    · rw [if_pos hpk, ih]
      simp only [lookupKV]
      rw [if_neg (fun hh => h (hh.symm.trans hpk))]
    · rw [if_neg hpk]
      simp only [lookupKV]
      by_cases hpk' : p.1 = k'
      · rw [if_pos hpk', if_pos hpk']
      · rw [if_neg hpk', if_neg hpk', ih]

theorem lookupKV_insert (s : Store) (k : String) (v : StoredValue) :
    lookupKV (insertKV s k v) k = some v := by
  simp [insertKV, lookupKV]

theorem lookupKV_insert_ne (s : Store) (k : String) (v : StoredValue)
    (k' : String) (h : k' ≠ k) :
    lookupKV (insertKV s k v) k' = lookupKV s k' := by
  simp only [insertKV, lookupKV]
  rw [if_neg (fun hh => (h hh.symm).elim)]
  exact lookupKV_remove_ne s k k' h

set_option maxHeartbeats 1600000 in
/-- Every branch of the dispatcher leaves the store alone, inserts at the
named key, or removes the named key. -/
theorem processSingleCommand_store_shape (c k : String) (rest : List String)
    (now : Nat) (s : Store) :
    (processSingleCommand (c :: k :: rest) now s).2 = s ∨
    (∃ v, (processSingleCommand (c :: k :: rest) now s).2 = insertKV s k v) ∨
    (processSingleCommand (c :: k :: rest) now s).2 = removeKV s k := by
  rcases rest with _ | ⟨a, _ | ⟨b, _ | ⟨d, rest4⟩⟩⟩ <;>
  · simp only [processSingleCommand]
    repeat' split
    all_goals
      first
      | exact Or.inl rfl
      | exact Or.inr (Or.inr rfl)
      | exact Or.inr (Or.inl ⟨_, rfl⟩)

/-- C1: the spec requires `ERROR key not found` for a `GET` or `DEL` of a
key with no entry, but the dispatcher replies with the distinct literal
`*KEY NOT FOUND*` in exactly that case (the `None` arms of GET and DEL);
only the expired-entry path produces `ERROR key not found`. -/
theorem c1_get_del_miss_reply :
    processSingleCommand ["GET", "missing"] 0 [] = ("*KEY NOT FOUND*\n", []) ∧
    processSingleCommand ["DEL", "missing"] 0 [] = ("*KEY NOT FOUND*\n", []) ∧
    "*KEY NOT FOUND*\n" ≠ "ERROR key not found\n" := by
  refine ⟨rfl, rfl, ?_⟩
  decide

/-- C2: `INCR` of an expired entry with a TTL argument stores `Integer(1)`
and replies `1`, but it keeps the stale expiration (`some 10`, already in
the past at `now = 20`) instead of deriving the expiration from the TTL
argument (`5s`, which the claim would make `some 25`): the TTL branch runs
only when the key has no entry at all (`current.is_none()`). -/
theorem c2_incr_expired_keeps_stale_expiration :
    processSingleCommand ["INCR", "k", "5s"] 20
        [("k", ⟨Value.Int 5, some 10⟩)] =
      ("1\n", [("k", ⟨Value.Int 1, some 10⟩)]) ∧
    (some 10 : Option Nat) ≠ some (20 + 5) ∧
    (some 10 : Option Nat) ≠ none := by
  refine ⟨?_, by decide, by decide⟩
  rfl

/-- C4: a `SET key value` with no TTL and both tokens within the 100-byte
limit replies `OK` and binds the key to an entry with no expiration,
holding `Integer(i)` when the value parses as a signed 64-bit integer and
`Text(value)` otherwise, replacing any prior entry entirely. -/
theorem c4_set_no_ttl (k v : String) (now : Nat) (s : Store)
    (hk : k.utf8ByteSize ≤ 100) (hv : v.utf8ByteSize ≤ 100) :
    processSingleCommand ["SET", k, v] now s =
      ("OK\n", insertKV s k ⟨coerceValue v, none⟩) ∧
    lookupKV (insertKV s k ⟨coerceValue v, none⟩) k =
      some ⟨coerceValue v, none⟩ ∧
    (∀ i, parseI64 v = some i → coerceValue v = Value.Int i) ∧
    (parseI64 v = none → coerceValue v = Value.Str v) := by
  have hcond : ¬(k.utf8ByteSize > 100 ∨ v.utf8ByteSize > 100) := by omega
  refine ⟨?_, lookupKV_insert s k _, ?_, ?_⟩
  · simp [processSingleCommand, hcond]
  · intro i hi
    simp [coerceValue, hi]
  · intro hi
    simp [coerceValue, hi]

/-- C4 witness: `SET a 7` on the empty store. -/
theorem c4_set_no_ttl_witness :
    processSingleCommand ["SET", "a", "7"] 0 [] =
      ("OK\n", insertKV [] "a" ⟨coerceValue "7", none⟩) ∧
    lookupKV (insertKV [] "a" ⟨coerceValue "7", none⟩) "a" =
      some ⟨coerceValue "7", none⟩ ∧
    (∀ i, parseI64 "7" = some i → coerceValue "7" = Value.Int i) ∧
    (parseI64 "7" = none → coerceValue "7" = Value.Str "7") :=
  c4_set_no_ttl "a" "7" 0 [] (by decide) (by decide)

/-- C9: a single command `GET`/`SET`/`INCR`/`DEL` on key `k` leaves the
entry of every other key `k'` (value and expiration alike) untouched. -/
theorem c9_frame_other_keys (c k : String) (rest : List String) (now : Nat)
    (s : Store) (k' : String)
    (_hc : c = "GET" ∨ c = "SET" ∨ c = "INCR" ∨ c = "DEL") (hk : k' ≠ k) :
    lookupKV (processSingleCommand (c :: k :: rest) now s).2 k' =
      lookupKV s k' := by
  rcases processSingleCommand_store_shape c k rest now s with h | ⟨v, h⟩ | h
  · rw [h]
  · rw [h, lookupKV_insert_ne s k v k' hk]
  · rw [h, lookupKV_remove_ne s k k' hk]

/-- C9 witness: a `SET` on key `a` leaves key `b` unchanged. -/
theorem c9_frame_other_keys_witness :
    lookupKV
        (processSingleCommand ["SET", "a", "1"] 0
          [("b", ⟨Value.Str "x", none⟩)]).2 "b" =
      lookupKV [("b", ⟨Value.Str "x", none⟩)] "b" :=
  c9_frame_other_keys "SET" "a" ["1"] 0 [("b", ⟨Value.Str "x", none⟩)] "b"
    (Or.inr (Or.inl rfl)) (by decide)

theorem lookupKV_filter_none (f : String × StoredValue → Bool) (t : Store)
    (k : String) (h : k ∉ t.map Prod.fst) : lookupKV (t.filter f) k = none := by
  induction t with
  | nil => rfl
  | cons p t ih =>
    simp only [List.map_cons, List.mem_cons, not_or] at h
    obtain ⟨h1, h2⟩ := h
    rw [List.filter_cons]
    by_cases hf : f p = true
    · rw [if_pos hf]
      simp only [lookupKV]
      rw [if_neg (fun hh => h1 hh.symm), ih h2]
    · rw [if_neg hf, ih h2]

/-- Characterisation of one sweep pass on a store with unique keys. -/
theorem sweep_lookup (now : Nat) (s : Store)
    (hnd : (s.map Prod.fst).Nodup) (k : String) :
    lookupKV (sweep now s) k =
      match lookupKV s k with
      | some sv =>
        match sv.expires_at with
        | some exp => if exp ≤ now then none else some sv
        | none => some sv
      | none => none := by
  induction s with
  | nil => rfl
  | cons p t ih =>
    rw [List.map_cons, List.nodup_cons] at hnd
    obtain ⟨hp, ht⟩ := hnd
    simp only [sweep] at ih ⊢
    rw [List.filter_cons]
    by_cases hkeep : (match p.2.expires_at with
        | some exp => decide (now < exp)
        | none => true) = true
    · rw [if_pos hkeep]
      by_cases hpk : p.1 = k
      · subst hpk
        simp only [lookupKV, if_pos rfl]
        rcases hexp : p.2.expires_at with _ | exp
        · simp [hexp]
        · rw [hexp] at hkeep
          simp only [decide_eq_true_eq] at hkeep
          simp [hexp, Nat.not_le_of_lt hkeep]
      · simp only [lookupKV]
        rw [if_neg hpk, if_neg hpk]
        exact ih ht
    · rw [if_neg hkeep]
      by_cases hpk : p.1 = k
      · subst hpk
        rw [lookupKV_filter_none _ t p.1 hp]
        simp only [lookupKV, if_pos rfl]
        rcases hexp : p.2.expires_at with _ | exp
        · rw [hexp] at hkeep
          simp at hkeep
        · rw [hexp] at hkeep
          simp only [decide_eq_true_eq] at hkeep
          simp [hexp, Nat.le_of_not_lt (by simpa using hkeep)]
      · simp only [lookupKV]
        rw [if_neg hpk]
        exact ih ht

/-- C6: one sweep pass removes exactly the entries whose expiration is at
or before `now`: such entries are looked up as absent afterwards, while
entries with no expiration or a strictly future expiration keep their
value and expiration unchanged.  `HashMap` keys are unique, modelled by
the `Nodup` hypothesis. -/
theorem c6_sweep_exact (now : Nat) (s : Store)
    (hnd : (s.map Prod.fst).Nodup) :
    (∀ k sv exp, lookupKV s k = some sv → sv.expires_at = some exp →
        exp ≤ now → lookupKV (sweep now s) k = none) ∧
    (∀ k sv, lookupKV s k = some sv →
        (sv.expires_at = none ∨ ∃ exp, sv.expires_at = some exp ∧ now < exp) →
        lookupKV (sweep now s) k = some sv) := by
  constructor
  · intro k sv exp hl he hle
    rw [sweep_lookup now s hnd k, hl]
    simp [he, hle]
  · intro k sv hl hal
    rw [sweep_lookup now s hnd k, hl]
    rcases hal with h | ⟨exp, he, hlt⟩
    · simp [h]
    · simp [he, Nat.not_le_of_lt hlt]

/-- C6 witness: sweeping at time 10 removes the entry expiring at 5 and
keeps the one expiring at 50. -/
theorem c6_sweep_exact_witness :
    lookupKV
        (sweep 10
          [("b", ⟨Value.Int 2, some 5⟩), ("c", ⟨Value.Int 3, some 50⟩)]) "b" =
      none ∧
    lookupKV
        (sweep 10
          [("b", ⟨Value.Int 2, some 5⟩), ("c", ⟨Value.Int 3, some 50⟩)]) "c" =
      some ⟨Value.Int 3, some 50⟩ :=
  ⟨(c6_sweep_exact 10 _ (by decide)).1 "b" ⟨Value.Int 2, some 5⟩ 5 rfl rfl
      (by decide),
   (c6_sweep_exact 10 _ (by decide)).2 "c" ⟨Value.Int 3, some 50⟩ rfl
      (Or.inr ⟨50, rfl, by decide⟩)⟩

theorem string_data_append (a b : String) : (a ++ b).data = a.data ++ b.data := by
  cases a
  cases b
  rfl

theorem digitChar_isDigit (m : Nat) (h : m < 10) :
    (Nat.digitChar m).isDigit = true := by
  interval_cases m <;> decide

theorem toDigitsCore_all_digits :
    ∀ (fuel n : Nat) (ds : List Char),
      (∀ c ∈ ds, c.isDigit = true) →
      ∀ c ∈ Nat.toDigitsCore 10 fuel n ds, c.isDigit = true := by
  intro fuel
  induction fuel with
  | zero => intro n ds h c hc; exact h c hc
  | succ fuel ih =>
    intro n ds h c hc
    rw [Nat.toDigitsCore] at hc
    have hd : ∀ x ∈ Nat.digitChar (n % 10) :: ds, x.isDigit = true := by
      intro x hx
      rcases List.mem_cons.mp hx with rfl | hx
      · exact digitChar_isDigit _ (Nat.mod_lt _ (by omega))
      · exact h x hx
    by_cases hz : n / 10 = 0
    · rw [if_pos hz] at hc
      exact hd c hc
    · rw [if_neg hz] at hc
      exact ih (n / 10) _ hd c hc

theorem toDigitsCore_length_le :
    ∀ (fuel n : Nat) (ds : List Char),
      ds.length ≤ (Nat.toDigitsCore 10 fuel n ds).length := by
  intro fuel
  induction fuel with
  | zero => intro n ds; exact Nat.le_refl _
  | succ fuel ih =>
    intro n ds
    rw [Nat.toDigitsCore]
    by_cases hz : n / 10 = 0
    · rw [if_pos hz]
      exact Nat.le_succ _
    · rw [if_neg hz]
      exact Nat.le_trans (Nat.le_succ _)
        (ih (n / 10) (Nat.digitChar (n % 10) :: ds))

theorem natRepr_head_digit (n : Nat) :
    ∃ c cs, (Nat.repr n).data = c :: cs ∧ c.isDigit = true := by
  have hne : Nat.toDigits 10 n ≠ [] := by
    intro h
    have := toDigitsCore_length_le (n + 1) n []
    rw [Nat.toDigits] at h
    rw [Nat.toDigitsCore] at h this
    by_cases hz : n / 10 = 0
    · rw [if_pos hz] at h
      exact List.cons_ne_nil _ _ h
    · rw [if_neg hz] at h
      have := toDigitsCore_length_le n (n / 10) [Nat.digitChar (n % 10)]
      rw [h] at this
      simp at this
  rcases hl : Nat.toDigits 10 n with _ | ⟨c, cs⟩
  · exact absurd hl hne
  · refine ⟨c, cs, ?_, ?_⟩
    · show (Nat.toDigits 10 n).asString.data = c :: cs
      rw [hl]
      rfl
    · have := toDigitsCore_all_digits (n + 1) n [] (by intro x hx; cases hx)
      rw [Nat.toDigits] at hl
      exact this c (by rw [hl]; exact List.mem_cons_self c cs)

theorem intString_head (i : Int) :
    ∃ c cs, (toString i).data = c :: cs ∧ (c.isDigit = true ∨ c = '-') := by
  have hrepr : toString i = Int.repr i := rfl
  rcases i with m | m
  · obtain ⟨c, cs, h1, h2⟩ := natRepr_head_digit m
    exact ⟨c, cs, by rw [hrepr]; exact h1, Or.inl h2⟩
  · refine ⟨'-', (Nat.repr (m + 1)).data, ?_, Or.inr rfl⟩
    rw [hrepr]
    show (("-" : String) ++ Nat.repr (m + 1)).data = '-' :: (Nat.repr (m + 1)).data
    rw [string_data_append]
    rfl

/-- A reply line rendering an integer never coincides with an `ERROR`
line: the first byte of the former is a digit or a minus sign. -/
theorem intReply_ne_error (i : Int) (msg : String) (t : List Char)
    (hmsg : msg.data = 'E' :: t) : toString i ++ "\n" ≠ msg := by
  intro h
  obtain ⟨c, cs, hdata, hc⟩ := intString_head i
  have hd : (toString i ++ "\n").data = c :: (cs ++ ['\n']) := by
    rw [string_data_append, hdata]
    rfl
  rw [h, hmsg] at hd
  have hce : 'E' = c := (List.cons.inj hd).1
  rcases hc with hdig | hdash
  · rw [← hce] at hdig
    exact absurd hdig (by decide)
  · rw [hdash] at hce
    exact absurd hce (by decide)

/-- C3 counterexample: `5ss` does not match the spec grammar
`\d+s | \d+min | \d+h`, yet `SET k 1 5ss` succeeds with `OK` instead of
replying `ERROR invalid expiration` (`trim_end_matches` strips every
trailing `s`); and `INCR k zzz` on an existing key replies `2`, skipping
TTL validation entirely, although `zzz` matches no grammar alternative. -/
theorem c3_counterexample :
    specTtlGrammar "5ss" = false ∧
    (processSingleCommand ["SET", "k", "1", "5ss"] 0 []).1 = "OK\n" ∧
    "OK\n" ≠ "ERROR invalid expiration\n" ∧
    (processSingleCommand ["INCR", "k", "zzz"] 0
        [("k", ⟨Value.Int 1, none⟩)]).1 = "2\n" ∧
    specTtlGrammar "zzz" = false ∧
    "2\n" ≠ "ERROR invalid expiration\n" := by
  exact ⟨by decide, rfl, by decide, rfl, by decide, by decide⟩

/-- C3 amended: a `SET` carrying a TTL token (tokens within the length
limit) replies `ERROR invalid expiration` exactly when `parse_expiration`
rejects the token — the accepted language strips all trailing repetitions
of the first matching unit suffix and reads the remainder as a `u64`, so
it is strictly larger than the spec grammar (e.g. `5ss`, `+5s`) and also
strictly smaller on huge numerals; an `INCR` carrying a TTL token
validates it exactly when the key has no entry at all (an expired entry
still counts as present and the token is then ignored unvalidated). -/
theorem c3_ttl_validation_observed :
    (∀ k v t now s, k.utf8ByteSize ≤ 100 → v.utf8ByteSize ≤ 100 →
        ((processSingleCommand ["SET", k, v, t] now s).1 =
            "ERROR invalid expiration\n" ↔
          parse_expiration t = none)) ∧
    (∀ k t now s, k.utf8ByteSize ≤ 100 →
        ((processSingleCommand ["INCR", k, t] now s).1 =
            "ERROR invalid expiration\n" ↔
          lookupKV s k = none ∧ parse_expiration t = none)) := by
  constructor
  · intro k v t now s hk hv
    have hcond : ¬(k.utf8ByteSize > 100 ∨ v.utf8ByteSize > 100) := by omega
    simp only [processSingleCommand]
    rcases hp : parse_expiration t with _ | d
    · simp [hcond, hp]
    · simp [hcond, hp]
  · intro k t now s hk
    have hcond : ¬k.utf8ByteSize > 100 := by omega
    simp only [processSingleCommand]
    rcases hcur : lookupKV s k with _ | sv
    · rcases hp : parse_expiration t with _ | d
      · simp [hcond, hcur, hp]
      · simp only [hcond, hcur, hp, if_neg, if_false]
        constructor
        · intro h
          exact absurd h
            (intReply_ne_error _ _ ("RROR invalid expiration\n").data
              (by decide))
        · rintro ⟨-, h2⟩
          cases h2
    · simp only [hcond, hcur, if_neg, if_false]
      constructor
      · intro h
        exact absurd h
          (intReply_ne_error _ _ ("RROR invalid expiration\n").data
            (by decide))
      · rintro ⟨h1, -⟩
        cases h1

/-- C3 witness: `SET k 1 xyz` with unparsable TTL on the empty store. -/
theorem c3_ttl_validation_observed_witness :
    (processSingleCommand ["SET", "k", "1", "xyz"] 0 []).1 =
        "ERROR invalid expiration\n" ↔
      parse_expiration "xyz" = none :=
  c3_ttl_validation_observed.1 "k" "1" "xyz" 0 [] (by decide) (by decide)

/-- C5: a key (or SET value) of 101 bytes or more makes GET/SET/INCR/DEL
reply `ERROR invalid length` with the store untouched, while tokens of
exactly 100 bytes pass the length check: GET and DEL proceed to their
normal store semantics, INCR never replies the length error, and SET
replies `OK`. -/
theorem c5_length_boundary :
    (∀ k now s, 100 < k.utf8ByteSize →
        processSingleCommand ["GET", k] now s =
          ("ERROR invalid length\n", s) ∧
        processSingleCommand ["DEL", k] now s =
          ("ERROR invalid length\n", s) ∧
        processSingleCommand ["INCR", k] now s =
          ("ERROR invalid length\n", s) ∧
        (∀ t, processSingleCommand ["INCR", k, t] now s =
            ("ERROR invalid length\n", s)) ∧
        (∀ v, processSingleCommand ["SET", k, v] now s =
            ("ERROR invalid length\n", s)) ∧
        (∀ v t, processSingleCommand ["SET", k, v, t] now s =
            ("ERROR invalid length\n", s))) ∧
    (∀ k v now s, k.utf8ByteSize ≤ 100 → 100 < v.utf8ByteSize →
        processSingleCommand ["SET", k, v] now s =
          ("ERROR invalid length\n", s) ∧
        (∀ t, processSingleCommand ["SET", k, v, t] now s =
            ("ERROR invalid length\n", s))) ∧
    (∀ k now s, k.utf8ByteSize = 100 →
        processSingleCommand ["GET", k] now s =
          (match lookupKV s k with
           | some stored =>
             match stored.expires_at with
             | some exp =>
               if exp ≤ now then ("ERROR key not found\n", removeKV s k)
               else (valueToString stored.value ++ "\n", s)
             | none => (valueToString stored.value ++ "\n", s)
           | none => ("*KEY NOT FOUND*\n", s)) ∧
        processSingleCommand ["DEL", k] now s =
          (match lookupKV s k with
           | some stored =>
             match stored.expires_at with
             | some exp =>
               if exp ≤ now then ("ERROR key not found\n", removeKV s k)
               else ("OK\n", removeKV s k)
             | none => ("OK\n", removeKV s k)
           | none => ("*KEY NOT FOUND*\n", s)) ∧
        (processSingleCommand ["INCR", k] now s).1 ≠
          "ERROR invalid length\n") ∧
    (∀ k v now s, k.utf8ByteSize = 100 → v.utf8ByteSize = 100 →
        (processSingleCommand ["SET", k, v] now s).1 = "OK\n") := by
  refine ⟨?_, ?_, ?_, ?_⟩
  · intro k now s h
    refine ⟨?_, ?_, ?_, fun t => ?_, fun v => ?_, fun v t => ?_⟩ <;>
      simp [processSingleCommand, h]
  · intro k v now s hk h
    refine ⟨?_, fun t => ?_⟩ <;>
      simp [processSingleCommand, h]
  · intro k now s h
    have hcond : ¬k.utf8ByteSize > 100 := by omega
    refine ⟨?_, ?_, ?_⟩
    · simp [processSingleCommand, hcond]
    · simp [processSingleCommand, hcond]
    · simp only [processSingleCommand]
      simp only [hcond, if_false, if_neg]
      exact intReply_ne_error _ _ ("RROR invalid length\n").data (by decide)
  · intro k v now s hk hv
    have hcond : ¬(k.utf8ByteSize > 100 ∨ v.utf8ByteSize > 100) := by omega
    simp [processSingleCommand, hcond]

/-- C5 witness: a 101-byte key is rejected, a pair of 100-byte tokens is
accepted. -/
theorem c5_length_boundary_witness :
    processSingleCommand ["GET", ⟨List.replicate 101 'a'⟩] 0 [] =
      ("ERROR invalid length\n", []) ∧
    (processSingleCommand ["SET", ⟨List.replicate 100 'a'⟩,
        ⟨List.replicate 100 'b'⟩] 0 []).1 = "OK\n" :=
  ⟨(c5_length_boundary.1 ⟨List.replicate 101 'a'⟩ 0 [] (by decide)).1,
   c5_length_boundary.2.2.2 ⟨List.replicate 100 'a'⟩ ⟨List.replicate 100 'b'⟩
     0 [] (by decide) (by decide)⟩

theorem batchHasPrefix (body : String) :
    "BATCH ".data.isPrefixOf ("BATCH " ++ body).data = true := by
  rw [string_data_append]
  simp [List.isPrefixOf_iff_prefix, List.prefix_append]

theorem batch_drop (body : String) :
    (⟨("BATCH " ++ body).data.drop 6⟩ : String) = body := by
  obtain ⟨d⟩ := body
  rw [string_data_append]
  rw [List.drop_left' (by decide : ("BATCH " : String).data.length = 6)]

/-- Unfolding of `process_command` on a line with the `BATCH ` prefix. -/
theorem processCommand_batch (body : String) (now : Nat) (s : Store) :
    processCommand ("BATCH " ++ body) now s =
      if (splitOnSemi body).length > 3 then ("ERROR too many commands\n", s)
      else
        (joinSemi (runBatch (splitOnSemi body) now s).1 ++ "\n",
         (runBatch (splitOnSemi body) now s).2) := by
  simp only [processCommand]
  rw [if_pos (batchHasPrefix body), batch_drop]

/-- C7: a `BATCH` body splitting on `;` into more than 3 sub-commands
replies `ERROR too many commands` with the store untouched and nothing
executed; with 1, 2 or 3 sub-commands (each non-empty after trimming)
every sub-command is executed in sequence on the store left by its
predecessors and the reply is the individual results joined by `;` on one
newline-terminated line. -/
theorem c7_batch_limit :
    (∀ body now s, 3 < (splitOnSemi body).length →
        processCommand ("BATCH " ++ body) now s =
          ("ERROR too many commands\n", s)) ∧
    (∀ body a now s, splitOnSemi body = [a] → rustTrim a ≠ "" →
        processCommand ("BATCH " ++ body) now s =
          (joinSemi
              [rustTrimEnd
                  (processSingleCommand (splitWhitespace (rustTrim a)) now
                    s).1] ++ "\n",
           (processSingleCommand (splitWhitespace (rustTrim a)) now s).2)) ∧
    (∀ body a b now s, splitOnSemi body = [a, b] →
        rustTrim a ≠ "" → rustTrim b ≠ "" →
        processCommand ("BATCH " ++ body) now s =
          (joinSemi
              [rustTrimEnd
                  (processSingleCommand (splitWhitespace (rustTrim a)) now
                    s).1,
               rustTrimEnd
                  (processSingleCommand (splitWhitespace (rustTrim b)) now
                    (processSingleCommand (splitWhitespace (rustTrim a)) now
                      s).2).1] ++ "\n",
           (processSingleCommand (splitWhitespace (rustTrim b)) now
              (processSingleCommand (splitWhitespace (rustTrim a)) now
                s).2).2)) ∧
    (∀ body a b c now s, splitOnSemi body = [a, b, c] →
        rustTrim a ≠ "" → rustTrim b ≠ "" → rustTrim c ≠ "" →
        processCommand ("BATCH " ++ body) now s =
          (joinSemi
              [rustTrimEnd
                  (processSingleCommand (splitWhitespace (rustTrim a)) now
                    s).1,
               rustTrimEnd
                  (processSingleCommand (splitWhitespace (rustTrim b)) now
                    (processSingleCommand (splitWhitespace (rustTrim a)) now
                      s).2).1,
               rustTrimEnd
                  (processSingleCommand (splitWhitespace (rustTrim c)) now
                    (processSingleCommand (splitWhitespace (rustTrim b)) now
                      (processSingleCommand (splitWhitespace (rustTrim a)) now
                        s).2).2).1] ++ "\n",
           (processSingleCommand (splitWhitespace (rustTrim c)) now
              (processSingleCommand (splitWhitespace (rustTrim b)) now
                (processSingleCommand (splitWhitespace (rustTrim a)) now
                  s).2).2).2)) := by
  refine ⟨?_, ?_, ?_, ?_⟩
  · intro body now s h
    rw [processCommand_batch, if_pos h]
  · intro body a now s heq hne
    rw [processCommand_batch, heq]
    rw [if_neg (by simp)]
    simp only [runBatch, if_neg hne]
  · intro body a b now s heq hna hnb
    rw [processCommand_batch, heq]
    rw [if_neg (by simp)]
    simp only [runBatch, if_neg hna, if_neg hnb]
  · intro body a b c now s heq hna hnb hnc
    rw [processCommand_batch, heq]
    rw [if_neg (by simp)]
    simp only [runBatch, if_neg hna, if_neg hnb, if_neg hnc]

/-- C7 witness: four sub-commands are refused, three `PING`s succeed. -/
theorem c7_batch_limit_witness :
    processCommand ("BATCH " ++ "1;2;3;4") 0 [] =
      ("ERROR too many commands\n", []) ∧
    processCommand ("BATCH " ++ "PING;PING;PING") 0 [] =
      (joinSemi
          [rustTrimEnd
              (processSingleCommand (splitWhitespace (rustTrim "PING")) 0
                []).1,
           rustTrimEnd
              (processSingleCommand (splitWhitespace (rustTrim "PING")) 0
                (processSingleCommand (splitWhitespace (rustTrim "PING")) 0
                  []).2).1,
           rustTrimEnd
              (processSingleCommand (splitWhitespace (rustTrim "PING")) 0
                (processSingleCommand (splitWhitespace (rustTrim "PING")) 0
                  (processSingleCommand (splitWhitespace (rustTrim "PING")) 0
                    []).2).2).1] ++ "\n",
       (processSingleCommand (splitWhitespace (rustTrim "PING")) 0
          (processSingleCommand (splitWhitespace (rustTrim "PING")) 0
            (processSingleCommand (splitWhitespace (rustTrim "PING")) 0
              []).2).2).2) :=
  ⟨c7_batch_limit.1 "1;2;3;4" 0 [] (by decide),
   c7_batch_limit.2.2.2 "PING;PING;PING" "PING" "PING" "PING" 0 []
     (by decide) (by decide) (by decide) (by decide)⟩

/-- C10: inside a `BATCH` every non-empty trimmed sub-command is handed to
the same single-command dispatcher used for standalone lines; hence a
`LIST` sub-command runs as a normal `LIST`, while a nested `BATCH`
sub-command falls through to the unknown-command arm of the dispatcher. -/
theorem c10_batch_single_dispatch :
    (∀ rest now s, processSingleCommand ("BATCH" :: rest) now s =
        ("ERROR unknown command\n", s)) ∧
    (∀ sub now s, splitOnSemi sub = [sub] → rustTrim sub ≠ "" →
        processCommand ("BATCH " ++ sub) now s =
          (rustTrimEnd
              (processSingleCommand (splitWhitespace (rustTrim sub)) now
                s).1 ++ "\n",
           (processSingleCommand (splitWhitespace (rustTrim sub)) now s).2)) ∧
    (∀ now s, processCommand "BATCH LIST" now s =
        (rustTrimEnd (processSingleCommand ["LIST"] now s).1 ++ "\n", s)) ∧
    (∀ now s, processCommand "BATCH BATCH GET a" now s =
        ("ERROR unknown command\n", s)) := by
  refine ⟨?_, ?_, ?_, ?_⟩
  · intro rest now s
    rfl
  · intro sub now s heq hne
    rw [processCommand_batch, heq]
    rw [if_neg (by simp)]
    simp only [runBatch, if_neg hne]
    rfl
  · intro now s
    rfl
  · intro now s
    rfl

/-- C10 witness: a single-sub-command batch line dispatches the
sub-command exactly as a standalone line would. -/
theorem c10_batch_single_dispatch_witness :
    processCommand ("BATCH " ++ "PING") 0 [] =
      (rustTrimEnd
          (processSingleCommand (splitWhitespace (rustTrim "PING")) 0 []).1 ++
        "\n",
       (processSingleCommand (splitWhitespace (rustTrim "PING")) 0 []).2) :=
  c10_batch_single_dispatch.2.1 "PING" 0 [] (by decide) (by decide)

/-- C8 counterexample: on a key holding `Integer(2^63 - 1)` (`i64::MAX`,
reachable via `SET k 9223372036854775807`), `INCR k` does not reply
`i + 1 = 9223372036854775808`: the 64-bit increment wraps (release-build
Rust semantics; a debug build would abort) and the reply is
`-9223372036854775808`. -/
theorem c8_counterexample :
    (processSingleCommand ["INCR", "k"] 0
        [("k", ⟨Value.Int (2 ^ 63 - 1), none⟩)]).1 =
      "-9223372036854775808\n" ∧
    "-9223372036854775808\n" ≠ "9223372036854775808\n" ∧
    ((2 ^ 63 - 1 : Int) + 1).toNat = 9223372036854775808 := by
  exact ⟨rfl, by decide, by decide⟩

/-- C8 amended: `INCR` on a present, unexpired `Integer(i)` entry replies
the 64-bit-wrapped `i + 1` and stores it, preserving the entry's existing
expiration unchanged; any TTL argument is ignored because the key has an
entry.  Whenever `i` is a 64-bit value other than `i64::MAX`, the wrapped
increment is exactly `i + 1`. -/
theorem c8_incr_existing (k : String) (i : Int) (e : Option Nat) (now : Nat)
    (s : Store) (rest : List String)
    (hcur : lookupKV s k = some ⟨Value.Int i, e⟩)
    (halive : ∀ x, e = some x → now < x)
    (hk : k.utf8ByteSize ≤ 100)
    (hrest : rest.length ≤ 1) :
    processSingleCommand ("INCR" :: k :: rest) now s =
      (toString (wrap64 (i + 1)) ++ "\n",
        insertKV s k ⟨Value.Int (wrap64 (i + 1)), e⟩) ∧
    (-(2 ^ 63) ≤ i → i < 2 ^ 63 - 1 → wrap64 (i + 1) = i + 1) := by
  have hcond : ¬k.utf8ByteSize > 100 := by omega
  constructor
  · rcases rest with _ | ⟨t, rest2⟩
    · simp only [processSingleCommand]
      rcases e with _ | x
      · simp [hcond, hcur]
      · have hx : now < x := halive x rfl
        simp [hcond, hcur, Nat.not_le_of_lt hx]
    · rcases rest2 with _ | ⟨u, rest3⟩
      · simp only [processSingleCommand]
        rcases e with _ | x
        · simp [hcond, hcur]
        · have hx : now < x := halive x rfl
          simp [hcond, hcur, Nat.not_le_of_lt hx]
      · simp at hrest
  · intro hlo hhi
    simp only [wrap64]
    omega

/-- C8 witness: `INCR k 9s` on an existing entry `Integer(5)` expiring at
99 ignores the TTL argument and keeps the expiration. -/
theorem c8_incr_existing_witness :
    processSingleCommand ("INCR" :: "k" :: ["9s"]) 0
        [("k", ⟨Value.Int 5, some 99⟩)] =
      (toString (wrap64 (5 + 1)) ++ "\n",
        insertKV [("k", ⟨Value.Int 5, some 99⟩)] "k"
          ⟨Value.Int (wrap64 (5 + 1)), some 99⟩) ∧
    (-(2 ^ 63) ≤ (5 : Int) → (5 : Int) < 2 ^ 63 - 1 → wrap64 (5 + 1) = 5 + 1) :=
  c8_incr_existing "k" 5 (some 99) 0 [("k", ⟨Value.Int 5, some 99⟩)] ["9s"]
    rfl (fun x hx => by cases hx; decide) (by decide) (by decide)

end Shrmpl
